import Mathlib

/-!
Shallow embedding of `src/game.py` (a noughts-and-crosses game with a
file-backed leaderboard), together with theorems settling the spec claims.

The board is a 3×3 grid of characters; the Python code stores `' '` for an
empty cell and `'X'` / `'O'` for the two players' marks.  Python's in-place
mutation is modelled by explicit state passing: every function that mutates
the board returns the new board.
-/

namespace Game

/-- A board: 3×3 grid of characters, as in the Python list-of-lists.
`board r c` is `board[r][c]`. -/
abbrev Board := Fin 3 → Fin 3 → Char

/-- The index list `[0, 1, 2]`, embedding Python's `range(3)` loops. -/
def cellIdx : List (Fin 3) := [0, 1, 2]

/-- `initialise_board` (game.py:23-29): sets every cell to `' '` and returns
the board.  The post-state is the all-blank board regardless of the input. -/
def initialise_board (_board : Board) : Board := fun _ _ => ' '

/-- The single-cell assignment `board[row][col] = symbol` used throughout
`play_game` (game.py:109, 126). -/
def set_cell (b : Board) (r c : Fin 3) (symbol : Char) : Board :=
  fun i j => if i = r then (if j = c then symbol else b i j) else b i j

/-- `check_for_win` (game.py:69-87): rows first, then columns, then the two
diagonals, returning `True` as soon as a line of three cells chained-equal
to `mark` is found.  Python's chained comparison
`a == b == c == mark` is `a == b && b == c && c == mark`. -/
def check_for_win (b : Board) (mark : Char) : Bool :=
  if cellIdx.any (fun row => b row 0 == b row 1 && b row 1 == b row 2 && b row 2 == mark) then
    true
  else if cellIdx.any (fun col => b 0 col == b 1 col && b 1 col == b 2 col && b 2 col == mark) then
    true
  else if b 0 0 == b 1 1 && b 1 1 == b 2 2 && b 2 2 == mark then
    true
  else if b 0 2 == b 1 1 && b 1 1 == b 2 0 && b 2 0 == mark then
    true
  else
    false

/-- `check_for_draw` (game.py:89-98): returns `False` if any cell is `' '`,
else `True`. -/
def check_for_draw (b : Board) : Bool :=
  !(cellIdx.any (fun row => cellIdx.any (fun col => b row col == ' ')))

/-- The `empty_cells` list built inside `choose_computer_move`
(game.py:58-62): all `(row, col)` with `board[row][col] == ' '`, in
row-major order. -/
def empty_cells (b : Board) : List (Fin 3 × Fin 3) :=
  cellIdx.flatMap (fun row =>
    cellIdx.filterMap (fun col => if b row col = ' ' then some (row, col) else none))

/-- All nine cell coordinates in row-major order (the iteration space of
the nested `for` loops). -/
def allCells : List (Fin 3 × Fin 3) :=
  cellIdx.flatMap (fun r => cellIdx.map (fun c => (r, c)))

/-- `choose_computer_move` (game.py:55-67).  `random.choice` on a non-empty
list is modelled by an explicit random index `k`, reduced mod the list
length; the empty-list branch returns `none` (Python's `None, None`). -/
def choose_computer_move (b : Board) (k : Nat) : Option (Fin 3 × Fin 3) :=
  if h : (empty_cells b).length = 0 then none
  else
    some ((empty_cells b).get
      ⟨k % (empty_cells b).length, Nat.mod_lt _ (Nat.pos_of_ne_zero h)⟩)

/-- The eight winning lines: 3 rows, 3 columns, 2 diagonals (glossary of the
spec; the same triples `check_for_win` examines). -/
def winLines : List ((Fin 3 × Fin 3) × (Fin 3 × Fin 3) × (Fin 3 × Fin 3)) :=
  [((0, 0), (0, 1), (0, 2)),
   ((1, 0), (1, 1), (1, 2)),
   ((2, 0), (2, 1), (2, 2)),
   ((0, 0), (1, 0), (2, 0)),
   ((0, 1), (1, 1), (2, 1)),
   ((0, 2), (1, 2), (2, 2)),
   ((0, 0), (1, 1), (2, 2)),
   ((0, 2), (1, 1), (2, 0))]

/-- A line is fully occupied by `mark`: all three of its cells equal `mark`. -/
def line_filled (b : Board) (mark : Char) (l : (Fin 3 × Fin 3) × (Fin 3 × Fin 3) × (Fin 3 × Fin 3)) : Bool :=
  b l.1.1 l.1.2 == mark && b l.2.1.1 l.2.1.2 == mark && b l.2.2.1 l.2.2.2 == mark

/-- Order-free win check over an arbitrary list of lines. -/
def wins_any (b : Board) (mark : Char) (ls : List ((Fin 3 × Fin 3) × (Fin 3 × Fin 3) × (Fin 3 × Fin 3))) : Bool :=
  ls.any (line_filled b mark)

/-- `get_player_move` (game.py:31-53).  The interactive `input()` loop is
modelled by a finite stream of attempted entries: `none` is a non-numeric
entry (Python's `ValueError` branch), `some move` a parsed integer.  The loop
skips invalid entries (out of range `1..9` or an occupied cell) and returns
the first valid `(row, col)` together with the unconsumed stream; if the
stream runs out (Python would block forever on `input()`) it returns `none`. -/
def get_player_move (b : Board) : List (Option Int) → Option ((Fin 3 × Fin 3) × List (Option Int))
  | [] => none
  | none :: rest => get_player_move b rest
  | some move :: rest =>
    if h : move < 1 ∨ 9 < move then get_player_move b rest
    else
      let r : Fin 3 := ⟨(move.toNat - 1) / 3, by omega⟩
      let c : Fin 3 := ⟨(move.toNat - 1) % 3, by omega⟩
      if b r c = ' ' then some ((r, c), rest) else get_player_move b rest

/-- The `while True` loop of `play_game` (game.py:106-138).  `fuel` bounds
the number of iterations (the Python loop has no syntactic bound); `inputs`
feeds `get_player_move`, `rands` feeds the random choice of
`choose_computer_move`, one draw per computer turn.  `none` means the model
ran out of fuel or input; a completed round yields `some score`.
When `choose_computer_move` returns `none` (Python's `row is None`), the
code skips the computer's block and loops (game.py:125). -/
def play_game_loop : Nat → Board → List (Option Int) → List Nat → Option Int
  | 0, _, _, _ => none
  | fuel + 1, b, inputs, rands =>
    match get_player_move b inputs with
    | none => none
    | some ((r, c), inputs') =>
      let b1 := set_cell b r c 'X'
      if check_for_win b1 'X' then some 1
      else if check_for_draw b1 then some 0
      else
        match rands with
        | [] => none
        | k :: rands' =>
          match choose_computer_move b1 k with
          | none => play_game_loop fuel b1 inputs' rands'
          | some (r2, c2) =>
            let b2 := set_cell b1 r2 c2 'O'
            if check_for_win b2 'O' then some (-1)
            else if check_for_draw b2 then some 0
            else play_game_loop fuel b2 inputs' rands'

/-- `play_game` (game.py:100-138): resets the board, then runs the loop. -/
def play_game (b : Board) (inputs : List (Option Int)) (rands : List Nat) (fuel : Nat) : Option Int :=
  play_game_loop fuel (initialise_board b) inputs rands

/-- Companion to `play_game_loop` with identical branching that also
reports the final board and the mark of the player whose move ended the
round.  `play_game_loop_eq_result_map` shows it is the same computation
(the score is its first projection); it only makes the round's actual
outcome observable, tying a returned score to the final board. -/
def play_game_result : Nat → Board → List (Option Int) → List Nat → Option (Int × Board × Char)
  | 0, _, _, _ => none
  | fuel + 1, b, inputs, rands =>
    match get_player_move b inputs with
    | none => none
    | some ((r, c), inputs') =>
      let b1 := set_cell b r c 'X'
      if check_for_win b1 'X' then some (1, b1, 'X')
      else if check_for_draw b1 then some (0, b1, 'X')
      else
        match rands with
        | [] => none
        | k :: rands' =>
          match choose_computer_move b1 k with
          | none => play_game_result fuel b1 inputs' rands'
          | some (r2, c2) =>
            let b2 := set_cell b1 r2 c2 'O'
            if check_for_win b2 'O' then some (-1, b2, 'O')
            else if check_for_draw b2 then some (0, b2, 'O')
            else play_game_result fuel b2 inputs' rands'

/-- Variant of `play_game_loop` that differs ONLY in the branch where
`choose_computer_move` returns `none`: there it returns the sentinel
`some 99` instead of looping.  Proving it equal to `play_game_loop`
everywhere shows that branch is unreachable in a round. -/
def play_game_loop_probe : Nat → Board → List (Option Int) → List Nat → Option Int
  | 0, _, _, _ => none
  | fuel + 1, b, inputs, rands =>
    match get_player_move b inputs with
    | none => none
    | some ((r, c), inputs') =>
      let b1 := set_cell b r c 'X'
      if check_for_win b1 'X' then some 1
      else if check_for_draw b1 then some 0
      else
        match rands with
        | [] => none
        | k :: rands' =>
          match choose_computer_move b1 k with
          | none => some 99
          | some (r2, c2) =>
            let b2 := set_cell b1 r2 c2 'O'
            if check_for_win b2 'O' then some (-1)
            else if check_for_draw b2 then some 0
            else play_game_loop_probe fuel b2 inputs' rands'

/-- `BoardEngine.apply` of the spec (§4.1): fails with `IllegalMove` when
the target cell is out of range or not Empty, otherwise sets the cell to
`symbol`.  In the source this operation is inlined: `get_player_move`
(game.py:39,48) performs the range/emptiness validation and rejects bad
moves, and `play_game` performs the assignment (game.py:109,126).  Failure
is `none` (the board is unchanged: the caller keeps the old board). -/
def apply (b : Board) (mv : Nat × Nat) (symbol : Char) : Option Board :=
  if h : mv.1 < 3 ∧ mv.2 < 3 then
    if b ⟨mv.1, h.1⟩ ⟨mv.2, h.2⟩ = ' ' then
      some (set_cell b ⟨mv.1, h.1⟩ ⟨mv.2, h.2⟩ symbol)
    else none
  else none

/-! ### Leaderboard (game.py:154-179)

The file system is modelled by the file's contents: `none` when
`leaderboard.txt` is absent, `some s` when present with text `s`.  JSON
parsing (`json.load`) is an abstract parameter `parse`; `parse s = none`
models a `json.JSONDecodeError`.  The score mapping (a Python dict keyed by
name) is an association list. -/

/-- The score mapping persisted in `leaderboard.txt`. -/
abbrev ScoreMap := List (String × Int)

/-- `load_scores` (game.py:154-163): absent file → `{}`; unparseable
contents → `{}` (the `except json.JSONDecodeError` branch); otherwise the
parsed mapping.  Total: no error is surfaced to the caller. -/
def load_scores (file : Option String) (parse : String → Option ScoreMap) : ScoreMap :=
  match file with
  | none => []
  | some contents =>
    match parse contents with
    | none => []
    | some leaders => leaders

/-- `leaders.get(name, 0)` (game.py:173). -/
def get_or_zero (m : ScoreMap) (name : String) : Int :=
  (m.lookup name).getD 0

/-- The dict assignment `leaders[name] = v`: replace the entry of `name` if
present, else add it. -/
def set_entry : ScoreMap → String → Int → ScoreMap
  | [], name, v => [(name, v)]
  | (k, w) :: rest, name, v =>
    if k = name then (name, v) :: rest else (k, w) :: set_entry rest name v

/-- `save_score` (game.py:165-179): loads the existing scores, adds `score`
to `name`'s total (0 when absent), and persists the result.  The returned
mapping is what `json.dump` writes back to the file. -/
def save_score (score : Int) (name : String) (file : Option String)
    (parse : String → Option ScoreMap) : ScoreMap :=
  let leaders := load_scores file parse
  set_entry leaders name (get_or_zero leaders name + score)

/-! ### Concrete test boards (used by witness theorems) -/

/-- Test board `X X · | O O X | X O O`: one Empty cell at (0,2); playing X
there completes row 0 and simultaneously fills the board. -/
def bSimulWin : Board := fun i j =>
  if i = 0 then (if j = 0 then 'X' else if j = 1 then 'X' else ' ')
  else if i = 1 then (if j = 0 then 'O' else if j = 1 then 'O' else 'X')
  else if j = 0 then 'X' else if j = 1 then 'O' else 'O'

/-- Test board `O O · | X X O | O X ·`: after X plays (2,2), cell (0,2) is
the only Empty cell; the computer's O there completes row 0 and fills the
board. -/
def bComputerWin : Board := fun i j =>
  if i = 0 then (if j = 0 then 'O' else if j = 1 then 'O' else ' ')
  else if i = 1 then (if j = 0 then 'X' else if j = 1 then 'X' else 'O')
  else if j = 0 then 'O' else if j = 1 then 'X' else ' '

/-- Test board: Empty at (0,0), `'O'` everywhere else; X at (0,0) fills the
board without completing a line for X. -/
def bNearDraw : Board := fun i j => if i = 0 ∧ j = 0 then ' ' else 'O'

/-! ### Helper lemmas -/

lemma set_cell_self (b : Board) (r c : Fin 3) (m : Char) : set_cell b r c m r c = m := by
  simp [set_cell]

lemma set_cell_ne (b : Board) (r c : Fin 3) (m : Char) (i j : Fin 3)
    (h : ¬(i = r ∧ j = c)) : set_cell b r c m i j = b i j := by
  unfold set_cell
  by_cases hi : i = r
  · by_cases hj : j = c
    · exact absurd ⟨hi, hj⟩ h
    · simp [hi, hj]
  · simp [hi]

lemma mem_cellIdx (x : Fin 3) : x ∈ cellIdx := by
  fin_cases x <;> decide

lemma mem_empty_cells (b : Board) (p : Fin 3 × Fin 3) :
    p ∈ empty_cells b ↔ b p.1 p.2 = ' ' := by
  obtain ⟨r, c⟩ := p
  simp only [empty_cells, List.mem_flatMap, List.mem_filterMap]
  constructor
  · rintro ⟨r', -, c', -, h⟩
    by_cases hb : b r' c' = ' '
    · rw [if_pos hb] at h
      cases h
      exact hb
    · rw [if_neg hb] at h
      cases h
  · intro h
    exact ⟨r, mem_cellIdx r, c, mem_cellIdx c, by rw [if_pos h]⟩

lemma check_for_draw_iff (b : Board) :
    check_for_draw b = true ↔ ∀ r c : Fin 3, b r c ≠ ' ' := by
  simp only [check_for_draw, Bool.not_eq_true', List.any_eq_false, List.any_eq_true,
    not_exists, not_and, beq_iff_eq, ne_eq]
  constructor
  · intro h r c
    exact h r (mem_cellIdx r) c (mem_cellIdx c)
  · intro h r _ c _
    exact h r c

lemma empty_cells_eq_nil_iff (b : Board) :
    empty_cells b = [] ↔ ∀ r c : Fin 3, b r c ≠ ' ' := by
  rw [List.eq_nil_iff_forall_not_mem]
  constructor
  · intro h r c hrc
    exact h (r, c) ((mem_empty_cells b (r, c)).mpr hrc)
  · intro h p hp
    exact h p.1 p.2 ((mem_empty_cells b p).mp hp)

lemma chain3 {a b c m : Char} : ((a = b ∧ b = c) ∧ c = m) ↔ ((a = m ∧ b = m) ∧ c = m) :=
  ⟨fun ⟨⟨h1, h2⟩, h3⟩ => ⟨⟨h1.trans (h2.trans h3), h2.trans h3⟩, h3⟩,
   fun ⟨⟨h1, h2⟩, h3⟩ => ⟨⟨h1.trans h2.symm, h2.trans h3.symm⟩, h3⟩⟩

lemma check_for_win_iff_exists (b : Board) (mark : Char) :
    check_for_win b mark = true ↔ ∃ l ∈ winLines, line_filled b mark l = true := by
  have hchain : ∀ (c1 c2 c3 c4 : Bool),
      (if c1 then true else if c2 then true else if c3 then true else
        if c4 then true else false) = (c1 || c2 || c3 || c4) := by decide
  unfold check_for_win
  rw [hchain]
  simp only [cellIdx, List.any_cons, List.any_nil, Bool.or_false, Bool.or_eq_true,
    Bool.and_eq_true, beq_iff_eq, winLines, List.mem_cons, List.not_mem_nil, or_false,
    exists_eq_or_imp, exists_eq_left, line_filled, chain3, or_assoc]

lemma wins_any_perm (b : Board) (mark : Char) {ls : List ((Fin 3 × Fin 3) × (Fin 3 × Fin 3) × (Fin 3 × Fin 3))}
    (hp : ls.Perm winLines) : wins_any b mark ls = wins_any b mark winLines := by
  rw [Bool.eq_iff_iff]
  simp only [wins_any, List.any_eq_true]
  constructor
  · rintro ⟨l, hl, h⟩
    exact ⟨l, hp.mem_iff.mp hl, h⟩
  · rintro ⟨l, hl, h⟩
    exact ⟨l, hp.mem_iff.mpr hl, h⟩

lemma wins_any_winLines_eq (b : Board) (mark : Char) :
    wins_any b mark winLines = check_for_win b mark := by
  rw [Bool.eq_iff_iff, check_for_win_iff_exists]
  simp only [wins_any, List.any_eq_true]

lemma length_filterMap_ite {α β : Type} (l : List α) (p : α → Prop) [DecidablePred p]
    (f : α → β) :
    (l.filterMap (fun a => if p a then some (f a) else none)).length
      = l.countP (fun a => decide (p a)) := by
  induction l with
  | nil => rfl
  | cons a as ih =>
    by_cases h : p a <;>
      simp [List.filterMap_cons, h, List.countP_cons, ih]

lemma empty_cells_eq_filterMap (b : Board) :
    empty_cells b = allCells.filterMap (fun p => if b p.1 p.2 = ' ' then some p else none) := by
  simp only [empty_cells, allCells, List.filterMap_flatMap, List.filterMap_map]
  rfl

lemma countP_succ_of_flip {α : Type} (p q : α → Bool) (a : α) :
    ∀ l : List α, a ∈ l → l.Nodup → p a = true → q a = false →
      (∀ x ∈ l, x ≠ a → q x = p x) → l.countP q + 1 = l.countP p := by
  intro l
  induction l with
  | nil => intro h; cases h
  | cons x xs ih =>
    intro hmem hnodup hpa hqa hagree
    rcases List.mem_cons.mp hmem with rfl | hmem'
    · rw [List.countP_cons, List.countP_cons, hpa, hqa]
      have hnotin : a ∉ xs := (List.nodup_cons.mp hnodup).1
      have heq : xs.countP q = xs.countP p := by
        apply List.countP_congr
        intro y hy
        rw [hagree y (List.mem_cons_of_mem _ hy) (fun he => hnotin (he ▸ hy))]
      simp [heq]
    · have hxa : x ≠ a := by
        rintro rfl
        exact (List.nodup_cons.mp hnodup).1 hmem'
      rw [List.countP_cons, List.countP_cons,
        hagree x (List.mem_cons_self x xs) hxa]
      have := ih hmem' (List.nodup_cons.mp hnodup).2 hpa hqa
        (fun y hy hne => hagree y (List.mem_cons_of_mem _ hy) hne)
      omega

lemma allCells_nodup : allCells.Nodup := by decide

lemma mem_allCells : ∀ p : Fin 3 × Fin 3, p ∈ allCells := by decide

lemma length_empty_cells (b : Board) :
    (empty_cells b).length = allCells.countP (fun p => decide (b p.1 p.2 = ' ')) := by
  rw [empty_cells_eq_filterMap]
  exact length_filterMap_ite allCells (fun p => b p.1 p.2 = ' ') id

lemma empty_cells_length_set (b : Board) (r c : Fin 3) (symbol : Char)
    (hempty : b r c = ' ') (hsym : symbol ≠ ' ') :
    (empty_cells (set_cell b r c symbol)).length + 1 = (empty_cells b).length := by
  rw [length_empty_cells, length_empty_cells]
  apply countP_succ_of_flip (fun x => decide (b x.1 x.2 = ' '))
    (fun x => decide (set_cell b r c symbol x.1 x.2 = ' ')) (r, c) allCells
    (mem_allCells (r, c)) allCells_nodup
  · simpa using hempty
  · simpa [set_cell_self] using hsym
  · intro x _ hne
    obtain ⟨i, j⟩ := x
    have hij : ¬(i = r ∧ j = c) := by
      rintro ⟨rfl, rfl⟩
      exact hne rfl
    simp [set_cell_ne b r c symbol i j hij]

lemma apply_some (b : Board) (mv : Nat × Nat) (symbol : Char) (b' : Board)
    (h : apply b mv symbol = some b') :
    ∃ (hr : mv.1 < 3) (hc : mv.2 < 3),
      b ⟨mv.1, hr⟩ ⟨mv.2, hc⟩ = ' ' ∧ b' = set_cell b ⟨mv.1, hr⟩ ⟨mv.2, hc⟩ symbol := by
  unfold apply at h
  split at h
  next hlt =>
    split at h
    next hemp => exact ⟨hlt.1, hlt.2, hemp, (Option.some.inj h).symm⟩
    next => cases h
  next => cases h

lemma lookup_set_entry_self (m : ScoreMap) (name : String) (v : Int) :
    (set_entry m name v).lookup name = some v := by
  induction m with
  | nil => simp [set_entry, List.lookup]
  | cons kv rest ih =>
    obtain ⟨k, w⟩ := kv
    by_cases h : k = name
    · simp [set_entry, h, List.lookup]
    · have hbeq : (name == k) = false := beq_eq_false_iff_ne.mpr (Ne.symm h)
      simp [set_entry, h, List.lookup, hbeq, ih]

lemma lookup_set_entry_ne (m : ScoreMap) (name other : String) (v : Int)
    (h : other ≠ name) :
    (set_entry m name v).lookup other = m.lookup other := by
  have hbeq : (other == name) = false := beq_eq_false_iff_ne.mpr h
  induction m with
  | nil => simp [set_entry, List.lookup, hbeq]
  | cons kv rest ih =>
    obtain ⟨k, w⟩ := kv
    by_cases hk : k = name
    · subst hk
      simp [set_entry, List.lookup, hbeq]
    · simp [set_entry, hk, List.lookup, ih]

lemma choose_some_of_not_draw (b : Board) (k : Nat)
    (h : check_for_draw b = false) :
    ∃ m, choose_computer_move b k = some m ∧ b m.1 m.2 = ' ' := by
  have hne : empty_cells b ≠ [] := by
    intro hnil
    rw [Bool.eq_false_iff] at h
    exact h ((check_for_draw_iff b).mpr ((empty_cells_eq_nil_iff b).mp hnil))
  have hlen : (empty_cells b).length ≠ 0 := fun h0 => hne (List.length_eq_zero.mp h0)
  unfold choose_computer_move
  rw [dif_neg hlen]
  exact ⟨_, rfl, (mem_empty_cells b _).mp (List.get_mem _ _ _)⟩

lemma play_game_loop_eq_probe :
    ∀ (fuel : Nat) (b : Board) (inputs : List (Option Int)) (rands : List Nat),
      play_game_loop fuel b inputs rands = play_game_loop_probe fuel b inputs rands := by
  intro fuel
  induction fuel with
  | zero => intro b inputs rands; rfl
  | succ n ih =>
    intro b inputs rands
    simp only [play_game_loop, play_game_loop_probe]
    rcases hgp : get_player_move b inputs with - | ⟨⟨r, c⟩, inputs'⟩
    · rfl
    · by_cases hw : check_for_win (set_cell b r c 'X') 'X' = true
      · simp [hw]
      · by_cases hd : check_for_draw (set_cell b r c 'X') = true
        · simp [hw, hd]
        · have hd' : check_for_draw (set_cell b r c 'X') = false := by
            simpa using hd
          cases rands with
          | nil => simp [hw, hd]
          | cons k rands' =>
            obtain ⟨⟨r2, c2⟩, hm, -⟩ := choose_some_of_not_draw (set_cell b r c 'X') k hd'
            simp [hw, hd, hm, ih]

lemma play_game_loop_eq_result_map :
    ∀ (fuel : Nat) (b : Board) (inputs : List (Option Int)) (rands : List Nat),
      play_game_loop fuel b inputs rands
        = (play_game_result fuel b inputs rands).map (fun x => x.1) := by
  intro fuel
  induction fuel with
  | zero => intro b inputs rands; rfl
  | succ n ih =>
    intro b inputs rands
    simp only [play_game_loop, play_game_result]
    rcases hgp : get_player_move b inputs with - | ⟨⟨r, c⟩, inputs'⟩
    · rfl
    · by_cases hw : check_for_win (set_cell b r c 'X') 'X' = true
      · simp [hw]
      · by_cases hd : check_for_draw (set_cell b r c 'X') = true
        · simp [hw, hd]
        · cases rands with
          | nil => simp [hw, hd]
          | cons k rands' =>
            rcases hch : choose_computer_move (set_cell b r c 'X') k with - | ⟨r2, c2⟩
            · simp [hw, hd, hch, ih]
            · by_cases hw2 : check_for_win (set_cell (set_cell b r c 'X') r2 c2 'O') 'O' = true
              · simp [hw, hd, hch, hw2]
              · by_cases hd2 : check_for_draw (set_cell (set_cell b r c 'X') r2 c2 'O') = true
                · simp [hw, hd, hch, hw2, hd2]
                · simp [hw, hd, hch, hw2, hd2, ih]

lemma play_game_result_characterization :
    ∀ (fuel : Nat) (b : Board) (inputs : List (Option Int)) (rands : List Nat)
      (s : Int) (bf : Board) (mover : Char),
      play_game_result fuel b inputs rands = some (s, bf, mover) →
      (s = 1 ∧ mover = 'X' ∧ check_for_win bf 'X' = true) ∨
      (s = -1 ∧ mover = 'O' ∧ check_for_win bf 'O' = true) ∨
      (s = 0 ∧ (mover = 'X' ∨ mover = 'O') ∧ check_for_draw bf = true ∧
        check_for_win bf mover = false) := by
  intro fuel
  induction fuel with
  | zero => intro b inputs rands s bf mover h; exact Option.noConfusion h
  | succ n ih =>
    intro b inputs rands s bf mover h
    simp only [play_game_result] at h
    rcases hgp : get_player_move b inputs with - | ⟨⟨r, c⟩, inputs'⟩ <;>
      simp only [hgp] at h
    · exact Option.noConfusion h
    · by_cases hw : check_for_win (set_cell b r c 'X') 'X' = true
      · rw [if_pos hw] at h
        injection h with h1
        injection h1 with hs h2
        injection h2 with hbf hmv
        subst hs
        subst hbf
        subst hmv
        exact Or.inl ⟨rfl, rfl, hw⟩
      · rw [if_neg hw] at h
        by_cases hd : check_for_draw (set_cell b r c 'X') = true
        · rw [if_pos hd] at h
          injection h with h1
          injection h1 with hs h2
          injection h2 with hbf hmv
          subst hs
          subst hbf
          subst hmv
          exact Or.inr (Or.inr ⟨rfl, Or.inl rfl, hd, by simpa using hw⟩)
        · rw [if_neg hd] at h
          cases rands with
          | nil => exact Option.noConfusion h
          | cons k rands' =>
            rcases hch : choose_computer_move (set_cell b r c 'X') k with - | ⟨r2, c2⟩ <;>
              simp only [hch] at h
            · exact ih _ _ _ _ _ _ h
            · by_cases hw2 : check_for_win (set_cell (set_cell b r c 'X') r2 c2 'O') 'O' = true
              · rw [if_pos hw2] at h
                injection h with h1
                injection h1 with hs h2
                injection h2 with hbf hmv
                subst hs
                subst hbf
                subst hmv
                exact Or.inr (Or.inl ⟨rfl, rfl, hw2⟩)
              · rw [if_neg hw2] at h
                by_cases hd2 : check_for_draw (set_cell (set_cell b r c 'X') r2 c2 'O') = true
                · rw [if_pos hd2] at h
                  injection h with h1
                  injection h1 with hs h2
                  injection h2 with hbf hmv
                  subst hs
                  subst hbf
                  subst hmv
                  exact Or.inr (Or.inr ⟨rfl, Or.inr rfl, hd2, by simpa using hw2⟩)
                · rw [if_neg hd2] at h
                  exact ih _ _ _ _ _ _ h

/-! ### Claim theorems -/

/-- C1: for every board and symbol, `check_for_win` returns true iff at
least one of the eight winning lines has all three cells equal to the
symbol; the result does not depend on the order in which the lines are
checked (any permutation of the line list gives the same answer). -/
theorem check_for_win_iff_line (b : Board) (mark : Char) :
    (check_for_win b mark = true ↔ ∃ l ∈ winLines, line_filled b mark l = true) ∧
    (∀ ls, ls.Perm winLines → wins_any b mark ls = check_for_win b mark) := by
  refine ⟨check_for_win_iff_exists b mark, fun ls hp => ?_⟩
  rw [wins_any_perm b mark hp, wins_any_winLines_eq]

/-- Witness for C1 at a concrete board and a concrete permutation of the
line list. -/
theorem check_for_win_iff_line_witness :
    (winLines.reverse.Perm winLines) ∧
    wins_any (fun _ _ => 'X') 'X' winLines.reverse = check_for_win (fun _ _ => 'X') 'X' :=
  ⟨winLines.reverse_perm,
   (check_for_win_iff_line (fun _ _ => 'X') 'X').2 winLines.reverse winLines.reverse_perm⟩

/-- C3: `apply` rejects any move whose target cell is out of range or not
Empty, failing with `IllegalMove` (`none`) — the board is unchanged since
failure returns no new board; a successful `apply` never changes a
non-Empty cell; and the concrete scenario: after `apply (0,0) X` succeeds,
`apply (0,0) O` on the resulting board fails and the cell still holds
`'X'`. -/
theorem apply_rejects_illegal :
    (∀ (b : Board) (mv : Nat × Nat) (symbol : Char),
      3 ≤ mv.1 ∨ 3 ≤ mv.2 → apply b mv symbol = none) ∧
    (∀ (b : Board) (r c : Fin 3) (symbol : Char),
      b r c ≠ ' ' → apply b (r.val, c.val) symbol = none) ∧
    (∀ (b : Board) (mv : Nat × Nat) (symbol : Char) (b' : Board),
      apply b mv symbol = some b' → ∀ r c : Fin 3, b r c ≠ ' ' → b' r c = b r c) ∧
    (∀ (b b1 : Board), apply b (0, 0) 'X' = some b1 →
      apply b1 (0, 0) 'O' = none ∧ b1 0 0 = 'X') := by
  have hrange : ∀ (b : Board) (mv : Nat × Nat) (symbol : Char),
      3 ≤ mv.1 ∨ 3 ≤ mv.2 → apply b mv symbol = none := by
    intro b mv symbol h
    have hn : ¬(mv.1 < 3 ∧ mv.2 < 3) := by omega
    simp [apply, hn]
  have hocc : ∀ (b : Board) (r c : Fin 3) (symbol : Char),
      b r c ≠ ' ' → apply b (r.val, c.val) symbol = none := by
    intro b r c symbol hne
    unfold apply
    rw [dif_pos (⟨r.isLt, c.isLt⟩ : (r.val, c.val).1 < 3 ∧ (r.val, c.val).2 < 3)]
    exact if_neg hne
  have hpres : ∀ (b : Board) (mv : Nat × Nat) (symbol : Char) (b' : Board),
      apply b mv symbol = some b' → ∀ r c : Fin 3, b r c ≠ ' ' → b' r c = b r c := by
    intro b mv symbol b' h r c hne
    obtain ⟨hr, hc, hemp, rfl⟩ := apply_some b mv symbol b' h
    apply set_cell_ne
    rintro ⟨rfl, rfl⟩
    exact hne hemp
  refine ⟨hrange, hocc, hpres, ?_⟩
  intro b b1 h
  obtain ⟨hr, hc, hemp, rfl⟩ := apply_some b (0, 0) 'X' b1 h
  have hx : set_cell b ⟨0, hr⟩ ⟨0, hc⟩ 'X' 0 0 = 'X' := set_cell_self b 0 0 'X'
  refine ⟨?_, hx⟩
  have := hocc (set_cell b ⟨0, hr⟩ ⟨0, hc⟩ 'X') 0 0 'O' (by rw [hx]; decide)
  exact this

/-- Witness for C3 at concrete boards: an out-of-range move, an occupied
cell, preservation of an occupied cell, and the X-then-O scenario at
(0,0). -/
theorem apply_rejects_illegal_witness :
    ((3 ≤ (3, 0).1 ∨ 3 ≤ (3, 0).2) ∧ apply (fun _ _ => ' ') (3, 0) 'O' = none) ∧
    ((set_cell (fun _ _ => ' ') 0 0 'X' 0 0 ≠ ' ') ∧
      apply (set_cell (fun _ _ => ' ') 0 0 'X') ((0 : Fin 3).val, (0 : Fin 3).val) 'O' = none) ∧
    (apply (set_cell (fun _ _ => ' ') 0 0 'X') (1, 1) 'O'
        = some (set_cell (set_cell (fun _ _ => ' ') 0 0 'X') 1 1 'O') ∧
      set_cell (set_cell (fun _ _ => ' ') 0 0 'X') 1 1 'O' 0 0
        = set_cell (fun _ _ => ' ') 0 0 'X' 0 0) ∧
    (apply (fun _ _ => ' ') (0, 0) 'X' = some (set_cell (fun _ _ => ' ') 0 0 'X') ∧
      apply (set_cell (fun _ _ => ' ') 0 0 'X') (0, 0) 'O' = none ∧
      set_cell (fun _ _ => ' ') 0 0 'X' 0 0 = 'X') :=
  ⟨⟨by decide, apply_rejects_illegal.1 (fun _ _ => ' ') (3, 0) 'O' (by decide)⟩,
   ⟨by decide, apply_rejects_illegal.2.1 (set_cell (fun _ _ => ' ') 0 0 'X') 0 0 'O' (by decide)⟩,
   ⟨rfl, apply_rejects_illegal.2.2.1 (set_cell (fun _ _ => ' ') 0 0 'X') (1, 1) 'O'
      (set_cell (set_cell (fun _ _ => ' ') 0 0 'X') 1 1 'O') rfl 0 0 (by decide)⟩,
   ⟨rfl, apply_rejects_illegal.2.2.2 (fun _ _ => ' ') (set_cell (fun _ _ => ' ') 0 0 'X') rfl⟩⟩

/-- C6: the list of legal moves is exactly the complement of the occupied
cells — it contains `(r, c)` iff the cell is Empty — and each successful
`apply` of a player mark to an Empty cell shrinks it by exactly one. -/
theorem legal_moves_complement_and_decrement :
    (∀ (b : Board) (p : Fin 3 × Fin 3), p ∈ empty_cells b ↔ b p.1 p.2 = ' ') ∧
    (∀ (b : Board) (mv : Nat × Nat) (symbol : Char) (b' : Board),
      apply b mv symbol = some b' → symbol ≠ ' ' →
      (empty_cells b').length + 1 = (empty_cells b).length) := by
  refine ⟨fun b p => mem_empty_cells b p, ?_⟩
  intro b mv symbol b' h hsym
  obtain ⟨hr, hc, hemp, rfl⟩ := apply_some b mv symbol b' h
  exact empty_cells_length_set b _ _ symbol hemp hsym

/-- Witness for C6: applying `'X'` at (0,0) on the blank board shrinks the
empty-cell list from 9 to 8. -/
theorem legal_moves_complement_and_decrement_witness :
    (apply (fun _ _ => ' ') (0, 0) 'X' = some (set_cell (fun _ _ => ' ') 0 0 'X') ∧
      ('X' : Char) ≠ ' ') ∧
    (empty_cells (set_cell (fun _ _ => ' ') 0 0 'X')).length + 1
      = (empty_cells (fun _ _ => ' ')).length :=
  ⟨⟨rfl, by decide⟩,
   legal_moves_complement_and_decrement.2 (fun _ _ => ' ') (0, 0) 'X'
     (set_cell (fun _ _ => ' ') 0 0 'X') rfl (by decide)⟩

/-- C7: loading the leaderboard when the storage file is absent, or present
but not parseable, yields the empty mapping; `load_scores` is total, so no
error reaches the caller. -/
theorem load_scores_tolerant :
    (∀ parse : String → Option ScoreMap, load_scores none parse = []) ∧
    (∀ (s : String) (parse : String → Option ScoreMap),
      parse s = none → load_scores (some s) parse = []) := by
  refine ⟨fun _ => rfl, fun s parse h => ?_⟩
  simp [load_scores, h]

/-- Witness for C7: a concrete corrupt file whose parse fails loads as the
empty mapping. -/
theorem load_scores_tolerant_witness :
    ((fun _ : String => (none : Option ScoreMap)) "garbage" = none) ∧
    load_scores (some "garbage") (fun _ => none) = [] :=
  ⟨rfl, load_scores_tolerant.2 "garbage" (fun _ => none) rfl⟩

/-- C8: saving a score delta makes the persisted entry of `name` equal to
its previous value (0 when absent) plus the delta, and leaves every other
name's entry in the loaded mapping unchanged. -/
theorem save_score_updates_only_name (score : Int) (name : String)
    (file : Option String) (parse : String → Option ScoreMap) :
    (save_score score name file parse).lookup name
        = some (((load_scores file parse).lookup name).getD 0 + score) ∧
    (∀ other, other ≠ name →
      (save_score score name file parse).lookup other
        = (load_scores file parse).lookup other) := by
  constructor
  · exact lookup_set_entry_self (load_scores file parse) name _
  · intro other h
    exact lookup_set_entry_ne (load_scores file parse) name other _ h

/-- Witness for C8: saving 5 for "ab" on an absent file gives "ab" ↦ 5 and
leaves "cd" absent. -/
theorem save_score_updates_only_name_witness :
    (("cd" : String) ≠ "ab") ∧
    (save_score 5 "ab" none (fun _ => none)).lookup "cd"
      = (load_scores none (fun _ => none)).lookup "cd" :=
  ⟨by decide,
   (save_score_updates_only_name 5 "ab" none (fun _ => none)).2 "cd" (by decide)⟩

/-- C5: `check_for_draw` (the spec's `isFull`) is true iff the list of
empty cells computed by `choose_computer_move` (the spec's `legalMoves`) is
empty, i.e. no cell of the grid holds the Empty symbol. -/
theorem check_for_draw_iff_no_empty_cells (b : Board) :
    (check_for_draw b = true ↔ empty_cells b = []) ∧
    (check_for_draw b = true ↔ ∀ r c : Fin 3, b r c ≠ ' ') := by
  refine ⟨?_, check_for_draw_iff b⟩
  rw [check_for_draw_iff, empty_cells_eq_nil_iff]

/-- C2: in the round loop, after every applied move the mover's win check
precedes the draw check.  A human move that simultaneously completes an X
line and fills the board yields `some 1`; a computer move that
simultaneously completes an O line and fills the board yields `some (-1)`;
and a draw (`some 0`) is returned only when the round's own final board
(reported by `play_game_result`, the same computation made observable) is
full and the player who made the final move has no winning line. -/
theorem win_precedes_draw :
    (∀ (fuel : Nat) (b : Board) (inputs : List (Option Int)) (rands : List Nat)
        (r c : Fin 3) (inputs' : List (Option Int)),
      get_player_move b inputs = some ((r, c), inputs') →
      check_for_win (set_cell b r c 'X') 'X' = true →
      check_for_draw (set_cell b r c 'X') = true →
      play_game_loop (fuel + 1) b inputs rands = some 1) ∧
    (∀ (fuel : Nat) (b : Board) (inputs : List (Option Int)) (r c : Fin 3)
        (inputs' : List (Option Int)) (k : Nat) (rands' : List Nat) (r2 c2 : Fin 3),
      get_player_move b inputs = some ((r, c), inputs') →
      check_for_win (set_cell b r c 'X') 'X' = false →
      check_for_draw (set_cell b r c 'X') = false →
      choose_computer_move (set_cell b r c 'X') k = some (r2, c2) →
      check_for_win (set_cell (set_cell b r c 'X') r2 c2 'O') 'O' = true →
      check_for_draw (set_cell (set_cell b r c 'X') r2 c2 'O') = true →
      play_game_loop (fuel + 1) b inputs (k :: rands') = some (-1)) ∧
    (∀ (fuel : Nat) (b : Board) (inputs : List (Option Int)) (rands : List Nat),
      play_game_loop fuel b inputs rands = some 0 →
      ∃ (bf : Board) (mover : Char),
        play_game_result fuel b inputs rands = some (0, bf, mover) ∧
        (mover = 'X' ∨ mover = 'O') ∧
        check_for_draw bf = true ∧ check_for_win bf mover = false) := by
  refine ⟨?_, ?_, ?_⟩
  · intro fuel b inputs rands r c inputs' hgp hw _hd
    simp only [play_game_loop, hgp]
    rw [if_pos hw]
  · intro fuel b inputs r c inputs' k rands' r2 c2 hgp hw1 hd1 hch hw2 _hd2
    simp only [play_game_loop, hgp, hch]
    rw [if_neg (by simp [hw1]), if_neg (by simp [hd1]), if_pos hw2]
  · intro fuel b inputs rands h
    rw [play_game_loop_eq_result_map] at h
    rcases hres : play_game_result fuel b inputs rands with - | ⟨s', bf, mover⟩ <;>
      rw [hres] at h
    · exact Option.noConfusion h
    · rw [Option.map_some'] at h
      have hs : s' = 0 := Option.some.inj h
      subst hs
      rcases play_game_result_characterization fuel b inputs rands 0 bf mover hres with
        h1 | h2 | h3
      · exact absurd h1.1 (by decide)
      · exact absurd h2.1 (by decide)
      · exact ⟨bf, mover, rfl, h3.2.1, h3.2.2.1, h3.2.2.2⟩

/-- Witness for C2: a simultaneous X-win-and-fill yields `some 1`, a
simultaneous O-win-and-fill yields `some (-1)`, and a concrete drawn round
yields `some 0` with the characterization. -/
theorem win_precedes_draw_witness :
    (get_player_move bSimulWin [some 3] = some ((0, 2), []) ∧
      check_for_win (set_cell bSimulWin 0 2 'X') 'X' = true ∧
      check_for_draw (set_cell bSimulWin 0 2 'X') = true ∧
      play_game_loop 1 bSimulWin [some 3] [] = some 1) ∧
    (get_player_move bComputerWin [some 9] = some ((2, 2), []) ∧
      check_for_win (set_cell bComputerWin 2 2 'X') 'X' = false ∧
      check_for_draw (set_cell bComputerWin 2 2 'X') = false ∧
      choose_computer_move (set_cell bComputerWin 2 2 'X') 0 = some (0, 2) ∧
      check_for_win (set_cell (set_cell bComputerWin 2 2 'X') 0 2 'O') 'O' = true ∧
      check_for_draw (set_cell (set_cell bComputerWin 2 2 'X') 0 2 'O') = true ∧
      play_game_loop 1 bComputerWin [some 9] [0] = some (-1)) ∧
    (play_game_loop 1 bNearDraw [some 1] [] = some 0 ∧
      ∃ (bf : Board) (mover : Char),
        play_game_result 1 bNearDraw [some 1] [] = some (0, bf, mover) ∧
        (mover = 'X' ∨ mover = 'O') ∧
        check_for_draw bf = true ∧ check_for_win bf mover = false) :=
  ⟨⟨rfl, by decide, by decide,
     win_precedes_draw.1 0 bSimulWin [some 3] [] 0 2 [] rfl (by decide) (by decide)⟩,
   ⟨rfl, by decide, by decide, rfl, by decide, by decide,
     win_precedes_draw.2.1 0 bComputerWin [some 9] 2 2 [] 0 [] 0 2 rfl
       (by decide) (by decide) rfl (by decide) (by decide)⟩,
   ⟨by decide, win_precedes_draw.2.2 1 bNearDraw [some 1] [] (by decide)⟩⟩

/-- C4: a completed round returns exactly the score delta of its outcome
and no other value: the score is the first projection of
`play_game_result` (the same loop made observable), and on the round's own
final board a returned `1` means the human's final X move won, `-1` means
the computer's final O move won, and `0` means the board is full. -/
theorem round_score_delta :
    (∀ (fuel : Nat) (b : Board) (inputs : List (Option Int)) (rands : List Nat),
      play_game_loop fuel b inputs rands
        = (play_game_result fuel b inputs rands).map (fun x => x.1)) ∧
    (∀ (fuel : Nat) (b : Board) (inputs : List (Option Int)) (rands : List Nat) (s : Int),
      play_game_loop fuel b inputs rands = some s →
      ∃ (bf : Board) (mover : Char),
        play_game_result fuel b inputs rands = some (s, bf, mover) ∧
        ((s = 1 ∧ mover = 'X' ∧ check_for_win bf 'X' = true) ∨
          (s = -1 ∧ mover = 'O' ∧ check_for_win bf 'O' = true) ∨
          (s = 0 ∧ check_for_draw bf = true ∧ check_for_win bf mover = false))) := by
  refine ⟨play_game_loop_eq_result_map, ?_⟩
  intro fuel b inputs rands s h
  rw [play_game_loop_eq_result_map] at h
  rcases hres : play_game_result fuel b inputs rands with - | ⟨s', bf, mover⟩ <;>
    rw [hres] at h
  · exact Option.noConfusion h
  · rw [Option.map_some'] at h
    have hs : s' = s := Option.some.inj h
    subst hs
    rcases play_game_result_characterization fuel b inputs rands s' bf mover hres with
      h1 | h2 | h3
    · exact ⟨bf, mover, rfl, Or.inl h1⟩
    · exact ⟨bf, mover, rfl, Or.inr (Or.inl h2)⟩
    · exact ⟨bf, mover, rfl, Or.inr (Or.inr ⟨h3.1, h3.2.2.1, h3.2.2.2⟩)⟩

/-- Witness for C4 at a concrete winning round. -/
theorem round_score_delta_witness :
    play_game_loop 1 bSimulWin [some 3] [] = some 1 ∧
    ∃ (bf : Board) (mover : Char),
      play_game_result 1 bSimulWin [some 3] [] = some (1, bf, mover) ∧
      (((1 : Int) = 1 ∧ mover = 'X' ∧ check_for_win bf 'X' = true) ∨
        ((1 : Int) = -1 ∧ mover = 'O' ∧ check_for_win bf 'O' = true) ∨
        ((1 : Int) = 0 ∧ check_for_draw bf = true ∧ check_for_win bf mover = false)) :=
  ⟨by decide, round_score_delta.2 1 bSimulWin [some 3] [] 1 (by decide)⟩

/-- C10: whenever the round loop calls `choose_computer_move` the board has
at least one Empty cell (the draw check after the human's move guarantees
it), so the call returns a concrete empty-cell coordinate; consequently
`play_game_loop` is extensionally equal to the probe variant whose
`(None, None)` branch is replaced by a sentinel — that branch is
unreachable during a round. -/
theorem computer_move_branch_unreachable :
    (∀ (b : Board) (k : Nat), check_for_draw b = false →
      ∃ m, choose_computer_move b k = some m ∧ b m.1 m.2 = ' ') ∧
    (∀ (fuel : Nat) (b : Board) (inputs : List (Option Int)) (rands : List Nat),
      play_game_loop fuel b inputs rands = play_game_loop_probe fuel b inputs rands) :=
  ⟨choose_some_of_not_draw, play_game_loop_eq_probe⟩

/-- Witness for C10 at a concrete non-full board. -/
theorem computer_move_branch_unreachable_witness :
    check_for_draw (set_cell (fun _ _ => ' ') 0 0 'X') = false ∧
    ∃ m, choose_computer_move (set_cell (fun _ _ => ' ') 0 0 'X') 4 = some m ∧
      set_cell (fun _ _ => ' ') 0 0 'X' m.1 m.2 = ' ' :=
  ⟨by decide,
   computer_move_branch_unreachable.1 (set_cell (fun _ _ => ' ') 0 0 'X') 4 (by decide)⟩

/-- C9: calling `check_for_win` with the Empty symbol `' '` on a freshly
reset board returns `true`: a line of three Empty cells satisfies the
chained equality test, since the win check does not require the queried
symbol to be a player mark. -/
theorem check_for_win_blank_on_fresh_board (b : Board) :
    check_for_win (initialise_board b) ' ' = true := rfl

end Game
